import Mathlib

/-!
Verification development for a small command-line task tracker
(source: src/task_tracker.py).

The embedding is shallow:
* a Python task dict (as built by add_task) becomes the structure Task;
* the JSON values the storage file can hold become the inductive Json
  (numbers are modelled as integers, the only numbers the program writes);
* the backing file becomes FileState: absent, unreadable-or-unparseable
  (open or json.load raises OSError or JSONDecodeError), or holding a
  parsed JSON value;
* standard input becomes a list of lines; each interactive helper
  consumes a prefix of that list and returns the remaining suffix,
  returning none when input is exhausted (in Python, EOF would raise);
* standard output of the menu actions is collected as a list of printed
  strings, one element per print call (prompt strings passed to input()
  are not collected).
-/

namespace TaskTracker

/-- Model of one task record, the dict built in add_task with keys
id, title, due_date (possibly None) and is_complete. -/
structure Task where
  id : Int
  title : String
  due_date : Option String
  is_complete : Bool
deriving DecidableEq, Repr

/-- Model of a parsed JSON value, with numbers restricted to integers
(the program itself only ever writes integer numbers). -/
inductive Json where
  | null : Json
  | bool (b : Bool) : Json
  | int (n : Int) : Json
  | str (s : String) : Json
  | arr (elems : List Json) : Json
  | obj (fields : List (String × Json)) : Json

/-- Model of the state of the backing file DATA_FILE. -/
inductive FileState where
  | absent : FileState
  | unreadable : FileState
  | content (j : Json) : FileState

/-- Field lookup in a JSON object field list (Python dict access by key;
keys written by this program are unique). -/
def lookup_field : List (String × Json) → String → Option Json
  | [], _ => none
  | (k, v) :: rest, key => if k = key then some v else lookup_field rest key

/-- Serialization of one task dict as done by json.dump: the four keys
in insertion order, None becoming null. -/
def task_to_json (t : Task) : Json :=
  Json.obj [("id", Json.int t.id),
            ("title", Json.str t.title),
            ("due_date", match t.due_date with
              | none => Json.null
              | some d => Json.str d),
            ("is_complete", Json.bool t.is_complete)]

/-- Serialization of the whole in-memory task list (a JSON array). -/
def serialize (tasks : List Task) : Json :=
  Json.arr (tasks.map task_to_json)

/-- Embedding of load_tasks (src/task_tracker.py lines 23-39): a missing
file yields an empty list, an unreadable or unparseable file yields an
empty list, and otherwise the parsed JSON value is returned as-is; the
code performs no validation of the parsed value. -/
def load_tasks : FileState → Json
  | FileState.absent => Json.arr []
  | FileState.unreadable => Json.arr []
  | FileState.content j => j

/-- Embedding of save_tasks (lines 42-48): the file now holds the JSON
serialization of the task list. -/
def save_tasks (tasks : List Task) : FileState :=
  FileState.content (serialize tasks)

/-- Decides whether a JSON value is a well-formed task record: an object
whose id is an integer, title a string, due_date null or a string, and
is_complete a boolean. -/
def is_task_record (j : Json) : Bool :=
  match j with
  | Json.obj kvs =>
    (match lookup_field kvs "id" with
     | some (Json.int _) => true
     | _ => false)
    && (match lookup_field kvs "title" with
        | some (Json.str _) => true
        | _ => false)
    && (match lookup_field kvs "due_date" with
        | some Json.null => true
        | some (Json.str _) => true
        | _ => false)
    && (match lookup_field kvs "is_complete" with
        | some (Json.bool _) => true
        | _ => false)
  | _ => false

/-- Decides whether a JSON value is a valid record collection: an array
of well-formed task records. -/
def is_record_collection (j : Json) : Bool :=
  match j with
  | Json.arr elems => elems.all is_task_record
  | _ => false

/-- Decoding of one task record back into a Task, reading the fields the
way the program does (task dict access by key). -/
def decode_task (j : Json) : Option Task :=
  match j with
  | Json.obj kvs =>
    match lookup_field kvs "id", lookup_field kvs "title",
          lookup_field kvs "due_date", lookup_field kvs "is_complete" with
    | some (Json.int i), some (Json.str t), some Json.null, some (Json.bool c) =>
      some { id := i, title := t, due_date := none, is_complete := c }
    | some (Json.int i), some (Json.str t), some (Json.str d), some (Json.bool c) =>
      some { id := i, title := t, due_date := some d, is_complete := c }
    | _, _, _, _ => none
  | _ => none

/-- Decoding of a JSON value as a task collection. -/
def decode_tasks (j : Json) : Option (List Task) :=
  match j with
  | Json.arr elems => elems.mapM decode_task
  | _ => none

/-- Embedding of next_task_id (lines 51-59): 1 on an empty list, and
otherwise the maximum existing id plus one. -/
def next_task_id (tasks : List Task) : Int :=
  match tasks with
  | [] => 1
  | t :: rest => (rest.foldl (fun acc x => max acc x.id) t.id) + 1

/-- Model of str.strip(): removes leading and trailing whitespace
characters (the handful of rarer Unicode space characters Python also
strips are not modelled). Implemented over the character list so that
it is fully structural. -/
def strip (s : String) : String :=
  String.mk ((s.data.dropWhile Char.isWhitespace).reverse.dropWhile
    Char.isWhitespace).reverse

/-- Numeric value of a decimal digit string, as computed by int() on a
string accepted by str.isdigit. -/
def str_to_nat (s : String) : Nat :=
  s.data.foldl (fun n c => n * 10 + (c.toNat - Char.toNat (Char.ofNat 48))) 0

/-- Decides whether a string would pass the raw.isdigit() test of
read_int: non-empty and made of decimal digits (the Unicode digit
characters Python additionally accepts are not modelled). -/
def is_all_digits (s : String) : Bool :=
  !s.data.isEmpty && s.data.all Char.isDigit

/-- Embedding of read_int (lines 64-72) over an input script: each
iteration strips one line; a line of digits whose value lies within
the bounds is returned together with the unconsumed input, any other
line is rejected and the loop continues; exhausted input yields none. -/
def read_int (min_value max_value : Int) : List String → Option Int × List String
  | [] => (none, [])
  | raw :: rest =>
    let s := strip raw
    if is_all_digits s then
      let value : Int := (str_to_nat s : Int)
      if min_value ≤ value ∧ value ≤ max_value then (some value, rest)
      else read_int min_value max_value rest
    else read_int min_value max_value rest

/-- Embedding of read_non_empty (lines 75-81): returns the first line
that is non-blank after stripping. -/
def read_non_empty : List String → Option String × List String
  | [] => (none, [])
  | raw :: rest =>
    let text := strip raw
    if text ≠ "" then (some text, rest)
    else read_non_empty rest

/-- Gregorian leap-year test, as used by the datetime module. -/
def is_leap_year (y : Nat) : Bool :=
  y % 4 = 0 && (y % 100 ≠ 0 || y % 400 = 0)

/-- Number of days of a month in the proleptic Gregorian calendar. -/
def days_in_month (y m : Nat) : Nat :=
  if m = 2 then (if is_leap_year y then 29 else 28)
  else if m = 4 ∨ m = 6 ∨ m = 9 ∨ m = 11 then 30
  else 31

/-- Splits a character list at every dash, the separator of the
YYYY-MM-DD format. -/
def split_dash : List Char → List (List Char)
  | [] => [[]]
  | c :: rest =>
    match split_dash rest with
    | [] => [[]]
    | grp :: grps =>
      if c = Char.ofNat 45 then [] :: grp :: grps else (c :: grp) :: grps

/-- Model of datetime.strptime(raw, "%Y-%m-%d"): the year is exactly
four digits, month and day are one or two digits, the whole string must
be consumed, and the datetime constructor then requires year at least 1,
month in 1..12 and day in 1..days_in_month. Returns the parsed
(year, month, day) or none where strptime raises ValueError. -/
def parse_date (s : String) : Option (Nat × Nat × Nat) :=
  match (split_dash s.data).map String.mk with
  | [ys, ms, ds] =>
    if is_all_digits ys && ys.length = 4
        && is_all_digits ms && ms.length ≤ 2
        && is_all_digits ds && ds.length ≤ 2 then
      let y := str_to_nat ys
      let m := str_to_nat ms
      let d := str_to_nat ds
      if 1 ≤ y ∧ 1 ≤ m ∧ m ≤ 12 ∧ 1 ≤ d ∧ d ≤ days_in_month y m then
        some (y, m, d)
      else none
    else none
  | _ => none

/-- Left-pads the decimal form of a number with zeros to a given width. -/
def pad_num (width n : Nat) : String :=
  let s := toString n
  String.mk (List.replicate (width - s.length) (Char.ofNat 48)) ++ s

/-- Model of dt.strftime("%Y-%m-%d"): four-digit zero-padded year,
two-digit zero-padded month and day. -/
def format_date : Nat × Nat × Nat → String
  | (y, m, d) => pad_num 4 y ++ "-" ++ pad_num 2 m ++ "-" ++ pad_num 2 d

/-- Embedding of read_optional_date (lines 84-99): a blank line yields
none (no date), a line parsing as a date yields its normalized form,
and any other line is rejected and the loop continues. -/
def read_optional_date : List String → Option (Option String) × List String
  | [] => (none, [])
  | raw :: rest =>
    let s := strip raw
    if s = "" then (some none, rest)
    else
      match parse_date s with
      | some ymd => (some (some (format_date ymd)), rest)
      | none => read_optional_date rest

/-- Embedding of pause (lines 102-104): consumes one line of input. -/
def pause : List String → Option (List String)
  | [] => none
  | _ :: rest => some rest

/-- Output of print_header (lines 109-113), one list element per print
call. -/
def print_header_out (title : String) : List String :=
  ["\n" ++ String.mk (List.replicate 40 (Char.ofNat 61)),
   title,
   String.mk (List.replicate 40 (Char.ofNat 61)) ++ "\n"]

/-- Rendering of one task line of list_tasks (line 124-127): the 1-based
index, a completion marker, the title, and the due date when the
due_date value is truthy (neither None nor the empty string). -/
def render_task (index : Nat) (t : Task) : String :=
  let status := if t.is_complete then "[X]" else "[ ]"
  let due := match t.due_date with
    | none => ""
    | some d => if d = "" then "" else " (Due: " ++ d ++ ")"
  toString index ++ ". " ++ status ++ " " ++ t.title ++ due

/-- Helper enumerating the task lines starting at a given index. -/
def render_tasks_from (index : Nat) : List Task → List String
  | [] => []
  | t :: rest => render_task index t :: render_tasks_from (index + 1) rest

/-- Output of list_tasks (lines 116-127). -/
def list_tasks_out (tasks : List Task) : List String :=
  print_header_out "YOUR TASKS" ++
    (if tasks.isEmpty then ["No tasks yet. Add one from the menu!"]
     else render_tasks_from 1 tasks)

/-- Mutation core of add_task (lines 139-146): the new task dict with
the freshly assigned id, appended at the end of the list. -/
def append_new_task (tasks : List Task) (title : String) (due_date : Option String) :
    List Task :=
  tasks ++ [{ id := next_task_id tasks, title := title,
              due_date := due_date, is_complete := false }]

/-- Mutation core of mark_complete (line 162): the assignment
tasks[choice - 1]["is_complete"] = True for a 1-based choice. The
out-of-range fallback branch is unreachable at the call site because
read_int bounds the choice by the list length. -/
def set_complete (tasks : List Task) (choice : Int) : List Task :=
  let n := (choice - 1).toNat
  match tasks[n]? with
  | some t => tasks.set n { t with is_complete := true }
  | none => tasks

/-- Mutation core of delete_task (line 178): tasks.pop(choice - 1) for a
1-based choice, returning the shortened list and the removed record. -/
def pop_at (tasks : List Task) (choice : Int) : List Task × Option Task :=
  let n := (choice - 1).toNat
  (tasks.eraseIdx n, tasks[n]?)

/-- Result of one interactive menu action: the task list, the backing
file, the unconsumed input, and the collected print output. -/
structure ActRes where
  tasks : List Task
  file : FileState
  input : List String
  output : List String

/-- Embedding of add_task (lines 132-149): reads a title and an optional
due date, appends the new task, and saves. Returns none when input runs
out at a prompt. -/
def add_task (tasks : List Task) (file : FileState) (input : List String) :
    Option ActRes :=
  match read_non_empty input with
  | (none, _) => none
  | (some title, rest) =>
    match read_optional_date rest with
    | (none, _) => none
    | (some due_date, rest2) =>
      let tasks2 := append_new_task tasks title due_date
      some { tasks := tasks2, file := save_tasks tasks2, input := rest2,
             output := print_header_out "ADD A TASK" ++ ["Task added and saved!"] }

/-- Embedding of mark_complete (lines 152-165): on an empty list, print
an informational message and return without reading further input or
saving; otherwise list the tasks, read a task number bounded by the list
length, set its flag, and save. -/
def mark_complete (tasks : List Task) (file : FileState) (input : List String) :
    Option ActRes :=
  if tasks.isEmpty then
    some { tasks := tasks, file := file, input := input,
           output := print_header_out "MARK TASK COMPLETE" ++
             ["No tasks to mark complete."] }
  else
    match read_int 1 (tasks.length : Int) input with
    | (none, _) => none
    | (some choice, rest) =>
      let tasks2 := set_complete tasks choice
      some { tasks := tasks2, file := save_tasks tasks2, input := rest,
             output := print_header_out "MARK TASK COMPLETE" ++
               list_tasks_out tasks ++ ["Task marked complete and saved!"] }

/-- Embedding of delete_task (lines 168-181): on an empty list, print an
informational message and return without reading further input or
saving; otherwise list the tasks, read a task number bounded by the list
length, pop it, save, and report the removed title. -/
def delete_task (tasks : List Task) (file : FileState) (input : List String) :
    Option ActRes :=
  if tasks.isEmpty then
    some { tasks := tasks, file := file, input := input,
           output := print_header_out "DELETE A TASK" ++ ["No tasks to delete."] }
  else
    match read_int 1 (tasks.length : Int) input with
    | (none, _) => none
    | (some choice, rest) =>
      match pop_at tasks choice with
      | (tasks2, deleted) =>
        some { tasks := tasks2, file := save_tasks tasks2, input := rest,
               output := print_header_out "DELETE A TASK" ++ list_tasks_out tasks ++
                 ["Deleted: " ++ (match deleted with
                   | some t => t.title
                   | none => "")] }

/-- State of the main loop: the in-memory task list and the backing
file. -/
structure St where
  tasks : List Task
  file : FileState

/-- Result of one iteration of the main loop. -/
structure StepRes where
  st : St
  input : List String
  output : List String
  exited : Bool

/-- Embedding of one iteration of the while loop of main (lines
195-226): read a menu choice in [1, 6], dispatch, and pause after
options 1-5; option 6 saves and exits. Returns none when input runs out
at any prompt. -/
def menu_step (st : St) (input : List String) : Option StepRes :=
  match read_int 1 6 input with
  | (none, _) => none
  | (some choice, rest) =>
    if choice = 1 then
      match pause rest with
      | none => none
      | some rest2 =>
        some { st := st, input := rest2,
               output := print_header_out "TASK TRACKER (PYTHON)" ++
                 list_tasks_out st.tasks,
               exited := false }
    else if choice = 2 then
      match add_task st.tasks st.file rest with
      | none => none
      | some r =>
        match pause r.input with
        | none => none
        | some rest2 =>
          some { st := { tasks := r.tasks, file := r.file }, input := rest2,
                 output := print_header_out "TASK TRACKER (PYTHON)" ++ r.output,
                 exited := false }
    else if choice = 3 then
      match mark_complete st.tasks st.file rest with
      | none => none
      | some r =>
        match pause r.input with
        | none => none
        | some rest2 =>
          some { st := { tasks := r.tasks, file := r.file }, input := rest2,
                 output := print_header_out "TASK TRACKER (PYTHON)" ++ r.output,
                 exited := false }
    else if choice = 4 then
      match delete_task st.tasks st.file rest with
      | none => none
      | some r =>
        match pause r.input with
        | none => none
        | some rest2 =>
          some { st := { tasks := r.tasks, file := r.file }, input := rest2,
                 output := print_header_out "TASK TRACKER (PYTHON)" ++ r.output,
                 exited := false }
    else if choice = 5 then
      match pause rest with
      | none => none
      | some rest2 =>
        some { st := { tasks := st.tasks, file := save_tasks st.tasks },
               input := rest2,
               output := print_header_out "TASK TRACKER (PYTHON)" ++ ["Saved!"],
               exited := false }
    else
      some { st := { tasks := st.tasks, file := save_tasks st.tasks },
             input := rest,
             output := print_header_out "TASK TRACKER (PYTHON)" ++ ["Goodbye!"],
             exited := true }

/-- Repository operation performed by one menu action, with the user
inputs already validated: the operations of the dispatcher that touch
the task list. -/
inductive Op where
  | add (title : String) (due_date : Option String) : Op
  | complete (choice : Int) : Op
  | delete (choice : Int) : Op

/-- Effect of one operation on the task list. -/
def apply_op (tasks : List Task) : Op → List Task
  | Op.add title due => append_new_task tasks title due
  | Op.complete choice => set_complete tasks choice
  | Op.delete choice => (pop_at tasks choice).1

/-- Task list reached from the empty collection by a sequence of
operations. -/
def run_ops (ops : List Op) : List Task :=
  ops.foldl apply_op []

/-- Task list reached from the empty collection by a sequence of add
operations with the given titles and due dates. -/
def run_adds (adds : List (String × Option String)) : List Task :=
  adds.foldl (fun tasks p => append_new_task tasks p.1 p.2) []

/-- Expected result of a pure add sequence: the task at offset i gets id
k + i, the given title and due date, and an unset completion flag. -/
def canon_from (k : Int) : List (String × Option String) → List Task
  | [] => []
  | (title, due) :: rest =>
    { id := k, title := title, due_date := due, is_complete := false } ::
      canon_from (k + 1) rest

/-- Decides whether read_int accepts a line: stripped, all digits, and
within the bounds. -/
def acceptable (min_value max_value : Int) (raw : String) : Bool :=
  is_all_digits (strip raw)
    && decide (min_value ≤ (str_to_nat (strip raw) : Int))
    && decide ((str_to_nat (strip raw) : Int) ≤ max_value)

/-! Helper lemmas. -/

/-- Unfolding equation for read_int on a cons cell, phrased through the
acceptability test. -/
theorem read_int_cons (lo hi : Int) (raw : String) (rest : List String) :
    read_int lo hi (raw :: rest) =
      if acceptable lo hi raw then ((some ((str_to_nat (strip raw) : Nat) : Int)), rest)
      else read_int lo hi rest := by
  simp only [read_int, acceptable]
  by_cases h1 : is_all_digits (strip raw)
  · by_cases h2 : lo ≤ ((str_to_nat (strip raw) : Nat) : Int) ∧
        ((str_to_nat (strip raw) : Nat) : Int) ≤ hi
    · simp [h1, h2.1, h2.2]
    · rw [if_pos h1, if_neg h2]
      rcases not_and_or.mp h2 with h3 | h3 <;> simp [h1, h3]
  · simp [h1]

/-- Any value returned by read_int lies within the requested bounds. -/
theorem read_int_bounds (lo hi : Int) :
    ∀ (input : List String) (v : Int) (rest : List String),
      read_int lo hi input = (some v, rest) → lo ≤ v ∧ v ≤ hi := by
  intro input
  induction input with
  | nil => intro v rest h; simp [read_int] at h
  | cons raw tail ih =>
    intro v rest h
    rw [read_int_cons] at h
    by_cases ha : acceptable lo hi raw
    · rw [if_pos ha] at h
      obtain ⟨h1, h2⟩ := Prod.mk.injEq .. ▸ h
      have ha2 := ha
      simp only [acceptable, Bool.and_eq_true, decide_eq_true_eq] at ha2
      cases h1
      exact ⟨ha2.1.2, ha2.2⟩
    · rw [if_neg ha] at h
      exact ih v rest h

/-- Unfolding equation for read_optional_date on a cons cell. -/
theorem read_optional_date_cons (raw : String) (rest : List String) :
    read_optional_date (raw :: rest) =
      if (strip raw) = "" then (some none, rest)
      else
        match parse_date (strip raw) with
        | some ymd => (some (some (format_date ymd)), rest)
        | none => read_optional_date rest := rfl

/-- Element access after eraseIdx: positions before the removed index
are unchanged, later positions shift down by one. -/
theorem getElem?_eraseIdx_split (l : List Task) :
    ∀ (n j : Nat), (l.eraseIdx n)[j]? = if j < n then l[j]? else l[j + 1]? := by
  induction l with
  | nil => intro n j; simp [List.eraseIdx]
  | cons a l ih =>
    intro n j
    cases n with
    | zero => simp [List.eraseIdx]
    | succ n =>
      cases j with
      | zero => simp [List.eraseIdx]
      | succ j =>
        simp only [List.eraseIdx, List.getElem?_cons_succ, ih n j,
          Nat.succ_lt_succ_iff]

/-- Setting a position to the value it already holds is the identity. -/
theorem set_of_getElem?_eq {α : Type} (l : List α) :
    ∀ (n : Nat) (a : α), l[n]? = some a → l.set n a = l := by
  induction l with
  | nil => intro n a h; simp at h
  | cons x xs ih =>
    intro n a h
    cases n with
    | zero =>
      simp only [List.getElem?_cons_zero, Option.some.injEq] at h
      simp [h]
    | succ n =>
      simp only [List.getElem?_cons_succ] at h
      simp [List.set, ih n a h]

/-- Decoding inverts the serialization of a single task record. -/
theorem decode_task_to_json (t : Task) : decode_task (task_to_json t) = some t := by
  obtain ⟨i, title, due, c⟩ := t
  cases due <;> rfl

/-! Claims. -/

/-- C1 counterexample: the code does not fall back to an empty
collection when the file holds valid JSON that is not a record
collection; json.load succeeds on the JSON text 42 and load_tasks
returns the number 42 as-is, so the claimed universal statement is
false. -/
theorem load_tasks_not_collection_cex :
    is_record_collection (Json.int 42) = false ∧
    load_tasks (FileState.content (Json.int 42)) = Json.int 42 ∧
    Json.int 42 ≠ Json.arr [] ∧
    ¬ (∀ j : Json, is_record_collection j = false →
        load_tasks (FileState.content j) = Json.arr []) :=
  ⟨rfl, rfl, fun h => Json.noConfusion h,
   fun h => Json.noConfusion (h (Json.int 42) rfl)⟩

/-- C1 (amended): load_tasks returns an empty collection when the file
is absent, and when reading or JSON-parsing fails, raising no error in
either case; but any successfully parsed JSON value, even one that is
not a valid record collection, is returned as-is. -/
theorem load_tasks_spec :
    load_tasks FileState.absent = Json.arr [] ∧
    load_tasks FileState.unreadable = Json.arr [] ∧
    ∀ j : Json, load_tasks (FileState.content j) = j :=
  ⟨rfl, rfl, fun _ => rfl⟩

/-- C4: saving a task collection and loading it back yields a JSON array
that decodes to the same collection: the same ids, titles, due dates
(including absence) and completion flags, in the same order. -/
theorem save_load_round_trip (tasks : List Task) :
    decode_tasks (load_tasks (save_tasks tasks)) = some tasks := by
  show decode_tasks (serialize tasks) = some tasks
  simp only [serialize, decode_tasks]
  induction tasks with
  | nil => rfl
  | cons t rest ih =>
    simp only [List.map_cons, List.mapM_cons, decode_task_to_json]
    simp only [List.map] at ih
    rw [ih]
    rfl

/-- The seed of the running maximum is dominated by its result. -/
theorem le_foldl_max (l : List Task) :
    ∀ a : Int, a ≤ l.foldl (fun acc x => max acc x.id) a := by
  induction l with
  | nil => intro a; exact le_refl a
  | cons t rest ih =>
    intro a
    exact le_trans (le_max_left a t.id) (ih (max a t.id))

/-- Every id in the list is dominated by the running maximum. -/
theorem mem_le_foldl_max (l : List Task) :
    ∀ (a : Int) (x : Task), x ∈ l → x.id ≤ l.foldl (fun acc y => max acc y.id) a := by
  induction l with
  | nil => intro a x hx; cases hx
  | cons t rest ih =>
    intro a x hx
    rcases List.mem_cons.mp hx with h | h
    · subst h
      exact le_trans (le_max_right a x.id) (le_foldl_max rest (max a x.id))
    · exact ih (max a t.id) x h

/-- The id assigned by next_task_id is strictly above every existing id. -/
theorem id_lt_next_task_id (tasks : List Task) :
    ∀ t ∈ tasks, t.id < next_task_id tasks := by
  intro t ht
  match tasks, ht with
  | x :: rest, ht =>
    simp only [next_task_id]
    rcases List.mem_cons.mp ht with h | h
    · subst h
      exact lt_of_le_of_lt (le_foldl_max rest t.id) (by omega)
    · exact lt_of_le_of_lt (mem_le_foldl_max rest x.id t h) (by omega)

/-- Appending the freshly numbered task advances next_task_id by one. -/
theorem next_task_id_append_new (tasks : List Task) (title : String)
    (due : Option String) :
    next_task_id (append_new_task tasks title due) = next_task_id tasks + 1 := by
  cases tasks with
  | nil => rfl
  | cons a rest =>
    simp only [append_new_task, next_task_id, List.cons_append, List.foldl_append,
      List.foldl_cons, List.foldl_nil]
    have h := le_foldl_max rest a.id
    omega

/-- Marking a task complete leaves the list of ids unchanged. -/
theorem set_complete_map_id (tasks : List Task) (choice : Int) :
    (set_complete tasks choice).map Task.id = tasks.map Task.id := by
  simp only [set_complete]
  cases h : tasks[(choice - 1).toNat]? with
  | none => rfl
  | some t =>
    rw [List.map_set]
    exact set_of_getElem?_eq (tasks.map Task.id) _ t.id
      (by rw [List.getElem?_map, h]; rfl)

/-- Deleting a task keeps a sublist of the original ids. -/
theorem pop_at_map_id_sublist (tasks : List Task) (choice : Int) :
    ((pop_at tasks choice).1.map Task.id).Sublist (tasks.map Task.id) :=
  (List.eraseIdx_sublist tasks (choice - 1).toNat).map Task.id

/-- Every operation preserves strict monotonicity of the stored ids. -/
theorem apply_op_sorted (tasks : List Task) (op : Op)
    (h : (tasks.map Task.id).Pairwise (· < ·)) :
    ((apply_op tasks op).map Task.id).Pairwise (· < ·) := by
  cases op with
  | add title due =>
    simp only [apply_op, append_new_task, List.map_append, List.map_cons, List.map_nil]
    rw [List.pairwise_append]
    refine ⟨h, List.pairwise_singleton _ _, ?_⟩
    intro a ha b hb
    rcases List.mem_map.mp ha with ⟨t, ht, rfl⟩
    rcases List.mem_singleton.mp hb with rfl
    exact id_lt_next_task_id tasks t ht
  | complete choice => rw [apply_op, set_complete_map_id]; exact h
  | delete choice => exact List.Pairwise.sublist (pop_at_map_id_sublist tasks choice) h

/-- Along any operation sequence from the empty collection the ids are
strictly increasing in list order. -/
theorem run_ops_sorted (ops : List Op) :
    ((run_ops ops).map Task.id).Pairwise (· < ·) := by
  suffices h : ∀ (ops : List Op) (tasks : List Task),
      (tasks.map Task.id).Pairwise (· < ·) →
      ((ops.foldl apply_op tasks).map Task.id).Pairwise (· < ·) by
    exact h ops [] (List.Pairwise.nil)
  intro ops
  induction ops with
  | nil => intro tasks h; exact h
  | cons op rest ih =>
    intro tasks h
    exact ih (apply_op tasks op) (apply_op_sorted tasks op h)

/-- C2 counterexample: id 2 is assigned to the second task, freed when
that task is deleted, and then reassigned to the task created next,
because next_task_id recomputes max(existing ids) + 1. The claimed
no-reuse property is therefore false. -/
theorem id_reuse_cex :
    run_ops [Op.add "a" none, Op.add "b" none] =
      [{ id := 1, title := "a", due_date := none, is_complete := false },
       { id := 2, title := "b", due_date := none, is_complete := false }] ∧
    run_ops [Op.add "a" none, Op.add "b" none, Op.delete 2] =
      [{ id := 1, title := "a", due_date := none, is_complete := false }] ∧
    run_ops [Op.add "a" none, Op.add "b" none, Op.delete 2, Op.add "c" none] =
      [{ id := 1, title := "a", due_date := none, is_complete := false },
       { id := 2, title := "c", due_date := none, is_complete := false }] := by
  refine ⟨?_, ?_, ?_⟩ <;> rfl

/-- C2 (amended): along every operation sequence from the empty
collection the ids held in the collection are strictly increasing in
list order, hence pairwise distinct; completing a task never changes any
id, and deleting a task keeps the surviving ids unchanged in order; but
the id of a deleted task can be assigned again to a task created later. -/
theorem ids_distinct_and_stable :
    (∀ ops : List Op, ((run_ops ops).map Task.id).Pairwise (· < ·)) ∧
    (∀ (tasks : List Task) (choice : Int),
      (set_complete tasks choice).map Task.id = tasks.map Task.id) ∧
    (∀ (tasks : List Task) (choice : Int),
      ((pop_at tasks choice).1.map Task.id).Sublist (tasks.map Task.id)) :=
  ⟨run_ops_sorted, set_complete_map_id, pop_at_map_id_sublist⟩

/-- Canonical shape of a pure add sequence, as a fold from any prefix. -/
theorem run_adds_general (adds : List (String × Option String)) :
    ∀ tasks : List Task,
      adds.foldl (fun ts p => append_new_task ts p.1 p.2) tasks =
        tasks ++ canon_from (next_task_id tasks) adds := by
  induction adds with
  | nil => intro tasks; simp [canon_from]
  | cons p rest ih =>
    intro tasks
    obtain ⟨title, due⟩ := p
    simp only [List.foldl_cons]
    rw [ih (append_new_task tasks title due), next_task_id_append_new]
    simp [append_new_task, canon_from, List.append_assoc]

/-- Ids of the canonical add-sequence result count up from the seed. -/
theorem canon_from_map_id (adds : List (String × Option String)) :
    ∀ k : Int, (canon_from k adds).map Task.id =
      (List.range adds.length).map (fun i : Nat => k + (i : Int)) := by
  induction adds with
  | nil => intro k; rfl
  | cons p rest ih =>
    intro k
    simp only [canon_from, List.map_cons, List.length_cons, List.range_succ_eq_map,
      List.map_map, ih (k + 1)]
    congr 1
    · simp
    · refine List.map_congr_left ?_
      intro i _
      simp only [Function.comp_apply, Nat.succ_eq_add_one]
      push_cast
      ring

/-- C3: a sequence of add operations from the empty collection produces
exactly the canonical list: the task created at offset i carries id
i + 1, the given title, the given optional due date, and an unset
completion flag, appended in creation order; the resulting ids are
1, 2, 3, ..., strictly increasing and pairwise distinct. -/
theorem add_sequence_spec (adds : List (String × Option String)) :
    run_adds adds = canon_from 1 adds ∧
    (run_adds adds).map Task.id =
      (List.range adds.length).map (fun i : Nat => (i : Int) + 1) ∧
    ((run_adds adds).map Task.id).Pairwise (· < ·) ∧
    ((run_adds adds).map Task.id).Nodup := by
  have h1 : run_adds adds = canon_from 1 adds := by
    have := run_adds_general adds []
    simpa [run_adds, next_task_id] using this
  have h2 : (run_adds adds).map Task.id =
      (List.range adds.length).map (fun i : Nat => (i : Int) + 1) := by
    rw [h1, canon_from_map_id adds 1]
    exact List.map_congr_left (fun i _ => by omega)
  have h3 : ((run_adds adds).map Task.id).Pairwise (· < ·) := by
    rw [h2]
    refine List.Pairwise.map _ ?_ (List.pairwise_lt_range adds.length)
    intro a b hab
    omega
  exact ⟨h1, h2, h3, h3.imp ne_of_lt⟩

/-- C5: for a 1-based display index within bounds, deletion removes
exactly the task at that position, shifts every later task down one
position, leaves all fields of the remaining tasks unchanged, and
returns the removed record, whose title the interactive action reports
in its output. -/
theorem delete_spec (tasks : List Task) (i : Int) (h1 : 1 ≤ i)
    (h2 : i ≤ (tasks.length : Int)) :
    ∃ t : Task, tasks[i.toNat - 1]? = some t ∧
      (pop_at tasks i).2 = some t ∧
      (pop_at tasks i).1 = tasks.take (i.toNat - 1) ++ tasks.drop (i.toNat - 1 + 1) ∧
      (pop_at tasks i).1.length + 1 = tasks.length ∧
      (∀ j : Nat, j < i.toNat - 1 → ((pop_at tasks i).1)[j]? = tasks[j]?) ∧
      (∀ j : Nat, i.toNat - 1 ≤ j → ((pop_at tasks i).1)[j]? = tasks[j + 1]?) ∧
      (∀ (file : FileState) (input rest : List String),
        read_int 1 (tasks.length : Int) input = (some i, rest) →
        delete_task tasks file input = some
          { tasks := (pop_at tasks i).1,
            file := save_tasks (pop_at tasks i).1,
            input := rest,
            output := print_header_out "DELETE A TASK" ++ list_tasks_out tasks ++
              ["Deleted: " ++ t.title] }) := by
  have hn : i.toNat - 1 < tasks.length := by omega
  have ht : tasks[i.toNat - 1]? = some tasks[i.toNat - 1] :=
    List.getElem?_eq_getElem hn
  refine ⟨tasks[i.toNat - 1], ht, ?_, ?_, ?_, ?_, ?_, ?_⟩
  · simp [pop_at, ht]
  · simp [pop_at, List.eraseIdx_eq_take_drop_succ]
  · simp only [pop_at, Int.pred_toNat, List.length_eraseIdx_of_lt hn]
    omega
  · intro j hj
    simp only [pop_at, getElem?_eraseIdx_split, Int.pred_toNat]
    rw [if_pos hj]
  · intro j hj
    simp only [pop_at, getElem?_eraseIdx_split, Int.pred_toNat]
    rw [if_neg (Nat.not_lt.mpr hj)]
  · intro file input rest hread
    have hne : tasks.isEmpty = false := by
      cases tasks with
      | nil => simp at hn
      | cons a l => rfl
    simp only [delete_task, hne, Bool.false_eq_true, if_false, hread]
    simp only [pop_at, Int.pred_toNat, ht]

/-- C6: for a 1-based display index within bounds, completion rewrites
only the targeted position, setting its flag and preserving its other
fields and every other task; it is idempotent, and the interactive
action saves the updated list. -/
theorem complete_spec (tasks : List Task) (i : Int) (h1 : 1 ≤ i)
    (h2 : i ≤ (tasks.length : Int)) :
    ∃ t : Task, tasks[i.toNat - 1]? = some t ∧
      set_complete tasks i = tasks.set (i.toNat - 1) { t with is_complete := true } ∧
      (set_complete tasks i)[i.toNat - 1]? = some { t with is_complete := true } ∧
      (∀ j : Nat, j ≠ i.toNat - 1 → (set_complete tasks i)[j]? = tasks[j]?) ∧
      set_complete (set_complete tasks i) i = set_complete tasks i ∧
      (∀ (file : FileState) (input rest : List String),
        read_int 1 (tasks.length : Int) input = (some i, rest) →
        mark_complete tasks file input = some
          { tasks := set_complete tasks i,
            file := save_tasks (set_complete tasks i),
            input := rest,
            output := print_header_out "MARK TASK COMPLETE" ++ list_tasks_out tasks ++
              ["Task marked complete and saved!"] }) := by
  have hn : i.toNat - 1 < tasks.length := by omega
  have ht : tasks[i.toNat - 1]? = some tasks[i.toNat - 1] :=
    List.getElem?_eq_getElem hn
  have hset : set_complete tasks i =
      tasks.set (i.toNat - 1) { tasks[i.toNat - 1] with is_complete := true } := by
    simp only [set_complete, Int.pred_toNat, ht]
  refine ⟨tasks[i.toNat - 1], ht, hset, ?_, ?_, ?_, ?_⟩
  · rw [hset]
    exact List.getElem?_set_self (by simpa using hn)
  · intro j hj
    rw [hset]
    exact List.getElem?_set_ne (fun h => hj h.symm)
  · rw [hset]
    have hset2 : (tasks.set (i.toNat - 1)
        { tasks[i.toNat - 1] with is_complete := true })[i.toNat - 1]? =
        some { tasks[i.toNat - 1] with is_complete := true } :=
      List.getElem?_set_self (by simpa using hn)
    simp only [set_complete, Int.pred_toNat, hset2]
    rw [List.set_set]
  · intro file input rest hread
    have hne : tasks.isEmpty = false := by
      cases tasks with
      | nil => simp at hn
      | cons a l => rfl
    simp only [mark_complete, hne, Bool.false_eq_true, if_false, hread]

/-- C7: read_optional_date returns no date on an empty line, the
normalized form of the first valid date otherwise, and consumes and
rejects every invalid non-empty line before that. -/
theorem read_optional_date_spec :
    (∀ rest : List String, read_optional_date ("" :: rest) = (some none, rest)) ∧
    (∀ rest : List String,
      read_optional_date ("2026-01-16" :: rest) = (some (some "2026-01-16"), rest)) ∧
    (∀ (raw : String) (rest : List String) (ymd : Nat × Nat × Nat),
      (strip raw) ≠ "" → parse_date (strip raw) = some ymd →
      read_optional_date (raw :: rest) = (some (some (format_date ymd)), rest)) ∧
    (∀ (raw : String) (rest : List String),
      (strip raw) ≠ "" → parse_date (strip raw) = none →
      read_optional_date (raw :: rest) = read_optional_date rest) := by
  have hvalid : ∀ (raw : String) (rest : List String) (ymd : Nat × Nat × Nat),
      (strip raw) ≠ "" → parse_date (strip raw) = some ymd →
      read_optional_date (raw :: rest) = (some (some (format_date ymd)), rest) := by
    intro raw rest ymd h1 h2
    rw [read_optional_date_cons, if_neg h1, h2]
  have hinvalid : ∀ (raw : String) (rest : List String),
      (strip raw) ≠ "" → parse_date (strip raw) = none →
      read_optional_date (raw :: rest) = read_optional_date rest := by
    intro raw rest h1 h2
    rw [read_optional_date_cons, if_neg h1, h2]
  refine ⟨?_, ?_, hvalid, hinvalid⟩
  · intro rest
    rw [read_optional_date_cons, if_pos (show strip "" = "" from rfl)]
  · intro rest
    rw [hvalid "2026-01-16" rest (2026, 1, 16) (by decide) (by decide)]
    rfl

/-- C7 witness: on the input lines not-a-date, 2026-01-16 the reader
rejects the first line and returns the normalized second one; on
not-a-date followed by an empty line it returns no date. -/
theorem read_optional_date_spec_witness :
    read_optional_date ["not-a-date", "2026-01-16"] = (some (some "2026-01-16"), []) ∧
    read_optional_date ["not-a-date", ""] = (some none, []) := by
  refine ⟨?_, ?_⟩
  · rw [read_optional_date_spec.2.2.2 "not-a-date" _ (by decide) (by decide)]
    exact read_optional_date_spec.2.1 []
  · rw [read_optional_date_spec.2.2.2 "not-a-date" _ (by decide) (by decide)]
    exact read_optional_date_spec.1 []

/-- C8: read_int skips every unacceptable line (non-numeric or out of
range), returns the value of the first acceptable line with the rest of
the input untouched, and any value it returns lies within the requested
bounds. -/
theorem read_int_spec (lo hi : Int) :
    (∀ (raw : String) (rest : List String), acceptable lo hi raw = false →
      read_int lo hi (raw :: rest) = read_int lo hi rest) ∧
    (∀ (raw : String) (rest : List String), acceptable lo hi raw = true →
      read_int lo hi (raw :: rest) = (some ((str_to_nat (strip raw) : Nat) : Int), rest) ∧
      lo ≤ ((str_to_nat (strip raw) : Nat) : Int) ∧
      ((str_to_nat (strip raw) : Nat) : Int) ≤ hi) ∧
    (∀ (input : List String) (v : Int) (rest : List String),
      read_int lo hi input = (some v, rest) → lo ≤ v ∧ v ≤ hi) := by
  refine ⟨?_, ?_, read_int_bounds lo hi⟩
  · intro raw rest h
    rw [read_int_cons, if_neg (by simp [h])]
  · intro raw rest h
    have hacc := h
    simp only [acceptable, Bool.and_eq_true, decide_eq_true_eq] at hacc
    exact ⟨by rw [read_int_cons, if_pos h], hacc.1.2, hacc.2⟩

/-- C8 witness: with bounds 1 and 6, the input 9 is rejected once and
the input 3 is then returned. -/
theorem read_int_spec_witness :
    read_int 1 6 ["9", "3"] = (some 3, []) ∧ (1 : Int) ≤ 3 ∧ (3 : Int) ≤ 6 := by
  refine ⟨?_, by decide, by decide⟩
  rw [(read_int_spec 1 6).1 "9" ["3"] (by decide)]
  rw [((read_int_spec 1 6).2.1 "3" [] (by decide)).1]
  rfl

/-- C10: with an empty collection, the complete and delete menu actions
print an informational message and return at once: they consume no
input, change no task, and leave the backing file untouched. -/
theorem empty_collection_guard (file : FileState) (input : List String) :
    mark_complete [] file input = some
      { tasks := [], file := file, input := input,
        output := print_header_out "MARK TASK COMPLETE" ++
          ["No tasks to mark complete."] } ∧
    delete_task [] file input = some
      { tasks := [], file := file, input := input,
        output := print_header_out "DELETE A TASK" ++ ["No tasks to delete."] } :=
  ⟨rfl, rfl⟩

/-- The add action always leaves the backing file holding the
serialization of the updated task list. -/
theorem add_task_saves (tasks : List Task) (file : FileState) (input : List String)
    (r : ActRes) (h : add_task tasks file input = some r) :
    r.file = save_tasks r.tasks := by
  unfold add_task at h
  split at h
  · exact Option.noConfusion h
  · split at h
    · exact Option.noConfusion h
    · injection h with h2
      subst h2
      rfl

/-- The complete action either returns with nothing changed (empty
collection) or leaves the backing file holding the serialization of the
updated task list. -/
theorem mark_complete_result (tasks : List Task) (file : FileState)
    (input : List String) (r : ActRes) (h : mark_complete tasks file input = some r) :
    (r.tasks = tasks ∧ r.file = file) ∨ r.file = save_tasks r.tasks := by
  unfold mark_complete at h
  split at h
  · injection h with h2
    subst h2
    exact Or.inl ⟨rfl, rfl⟩
  · split at h
    · exact Option.noConfusion h
    · injection h with h2
      subst h2
      exact Or.inr rfl

/-- The delete action either returns with nothing changed (empty
collection) or leaves the backing file holding the serialization of the
updated task list. -/
theorem delete_task_result (tasks : List Task) (file : FileState)
    (input : List String) (r : ActRes) (h : delete_task tasks file input = some r) :
    (r.tasks = tasks ∧ r.file = file) ∨ r.file = save_tasks r.tasks := by
  unfold delete_task at h
  split at h
  · injection h with h2
    subst h2
    exact Or.inl ⟨rfl, rfl⟩
  · split at h
    · exact Option.noConfusion h
    · split at h
      injection h with h2
      subst h2
      exact Or.inr rfl

/-- C9: every completed iteration of the main loop either leaves both
the task list and the backing file untouched, or ends with the backing
file holding the serialization of the current task list; an exiting
iteration always ends with the file saved, so the on-disk collection
never lags the in-memory one by more than the single action being
processed. -/
theorem dispatcher_saves (st : St) (input : List String) (r : StepRes)
    (h : menu_step st input = some r) :
    ((r.st.tasks = st.tasks ∧ r.st.file = st.file) ∨
      r.st.file = save_tasks r.st.tasks) ∧
    (r.exited = true → r.st.file = save_tasks r.st.tasks) := by
  unfold menu_step at h
  split at h
  · exact Option.noConfusion h
  · split at h
    · -- choice 1: list tasks, no mutation
      split at h
      · exact Option.noConfusion h
      · injection h with h2
        subst h2
        exact ⟨Or.inl ⟨rfl, rfl⟩, fun hx => Bool.noConfusion hx⟩
    · split at h
      · -- choice 2: add
        split at h
        · exact Option.noConfusion h
        · rename_i ar hadd
          split at h
          · exact Option.noConfusion h
          · injection h with h2
            subst h2
            exact ⟨Or.inr (add_task_saves _ _ _ _ hadd),
                   fun hx => Bool.noConfusion hx⟩
      · split at h
        · -- choice 3: complete
          split at h
          · exact Option.noConfusion h
          · rename_i ar hmc
            split at h
            · exact Option.noConfusion h
            · injection h with h2
              subst h2
              rcases mark_complete_result _ _ _ _ hmc with ⟨ht, hf⟩ | hs
              · exact ⟨Or.inl ⟨ht, hf⟩, fun hx => Bool.noConfusion hx⟩
              · exact ⟨Or.inr hs, fun hx => Bool.noConfusion hx⟩
        · split at h
          · -- choice 4: delete
            split at h
            · exact Option.noConfusion h
            · rename_i ar hdel
              split at h
              · exact Option.noConfusion h
              · injection h with h2
                subst h2
                rcases delete_task_result _ _ _ _ hdel with ⟨ht, hf⟩ | hs
                · exact ⟨Or.inl ⟨ht, hf⟩, fun hx => Bool.noConfusion hx⟩
                · exact ⟨Or.inr hs, fun hx => Bool.noConfusion hx⟩
          · split at h
            · -- choice 5: explicit save
              split at h
              · exact Option.noConfusion h
              · injection h with h2
                subst h2
                exact ⟨Or.inr rfl, fun hx => Bool.noConfusion hx⟩
            · -- choice 6: save and exit
              injection h with h2
              subst h2
              exact ⟨Or.inr rfl, fun _ => rfl⟩

/-- C9 witness: from an empty collection and an absent file, choosing
option 6 exits with the empty collection saved to the file. -/
theorem dispatcher_saves_witness :
    ((([] : List Task) = [] ∧ FileState.content (Json.arr []) = FileState.absent) ∨
      FileState.content (Json.arr []) = save_tasks []) ∧
    (true = true → FileState.content (Json.arr []) = save_tasks []) :=
  dispatcher_saves { tasks := [], file := FileState.absent } ["6"]
    { st := { tasks := [], file := FileState.content (Json.arr []) },
      input := [],
      output := print_header_out "TASK TRACKER (PYTHON)" ++ ["Goodbye!"],
      exited := true }
    rfl

/-- C5 witness: with two tasks of ids 1 and 2, deleting display index 1
leaves the task of id 2 alone at display position 1. -/
theorem delete_spec_witness :
    (pop_at [{ id := 1, title := "a", due_date := none, is_complete := false },
             { id := 2, title := "b", due_date := none, is_complete := false }] 1).1 =
      [{ id := 2, title := "b", due_date := none, is_complete := false }] := by
  obtain ⟨t, ht, hpop, htd, hlen, hbefore, hafter, hio⟩ :=
    delete_spec
      [{ id := 1, title := "a", due_date := none, is_complete := false },
       { id := 2, title := "b", due_date := none, is_complete := false }] 1
      (by decide) (by decide)
  exact htd.trans (by decide)

/-- C6 witness: completing display index 1 of a singleton collection
sets exactly its flag. -/
theorem complete_spec_witness :
    set_complete [{ id := 1, title := "a", due_date := none, is_complete := false }] 1 =
      [{ id := 1, title := "a", due_date := none, is_complete := true }] := by
  obtain ⟨t, ht, hset, hat, hother, hidem, hio⟩ :=
    complete_spec [{ id := 1, title := "a", due_date := none, is_complete := false }] 1
      (by decide) (by decide)
  simp only [Int.toNat_one, Nat.sub_self, List.getElem?_cons_zero,
    Option.some.injEq] at ht
  subst ht
  exact hset.trans (by decide)

end TaskTracker
